import Mathlib

/-!
Verification of the holder-statistics engine of `dao-api`
(`src/utils/fetch/token_stats.ts`).

The TypeScript source is shallowly embedded: JavaScript numbers are
modelled as exact rationals (`ℚ`), the JS `Map` ledger as an insertion-ordered
association list, block numbers as `ℕ`, and the asynchronous chain provider as
an explicit environment record whose fallible calls return `Except` values.
`null`-returning functions are modelled with `Option`.
-/

namespace DaoApi

/-- Failures surfaced by the JSON-RPC provider (thrown errors in the source;
`rateLimited` is the HTTP-429-equivalent case). -/
inductive ProviderError
  | rateLimited
  | rpcError
  | badResponse
deriving DecidableEq, Repr

/-- A decoded `Transfer` event, as consumed by the loop body of
`fetchHolders` (interface `TransferEvent` in the source, plus the block
number the event was emitted at, which the provider uses to answer ranged
`queryFilter` calls).  The raw value is the unsigned on-chain integer
amount (`ethers.BigNumberish`). -/
structure TransferEvent where
  fromAddr : String
  toAddr : String
  rawValue : ℕ
  blockNumber : ℕ
  txHash : String
deriving DecidableEq, Repr

/-- The running balance map (`holders: Map<string, number>` in the source),
modelled as an association list in insertion order. -/
abbrev Ledger := List (String × ℚ)

/-- `ethers.formatUnits` followed by `parseFloat`: decode a raw integer
amount by dividing by `10 ^ decimals`. -/
def decodeValue (raw : ℕ) (decimals : ℕ) : ℚ :=
  (raw : ℚ) / 10 ^ decimals

/-- `holders.has(k)`. -/
def hasEntry : Ledger → String → Bool
  | [], _ => false
  | p :: rest, k => p.1 == k || hasEntry rest k

/-- `holders.get(k) || 0` (the source always reads with a `|| 0` fallback or
after ensuring the key exists). -/
def getEntry : Ledger → String → ℚ
  | [], _ => 0
  | p :: rest, k => if p.1 = k then p.2 else getEntry rest k

/-- `holders.set(k, v)`: overwrite the first matching entry in place, or
append a fresh entry at the end (JS `Map` insertion-order semantics). -/
def setEntry : Ledger → String → ℚ → Ledger
  | [], k, v => [(k, v)]
  | p :: rest, k, v => if p.1 = k then (k, v) :: rest else p :: setEntry rest k v

/-- `if (!holders.has(k)) holders.set(k, 0)`. -/
def ensureEntry (L : Ledger) (k : String) : Ledger :=
  if hasEntry L k then L else L ++ [(k, 0)]

/-- One iteration of the event loop in `fetchHolders`: skip the event when a
falsy `from`/`to`/`value` field makes it malformed (the empty string and the
number 0 are the falsy cases of the modelled types), otherwise decode the
amount, create missing entries, subtract from the sender and add to the
receiver. -/
def applyEvent (decimals : ℕ) (L : Ledger) (e : TransferEvent) : Ledger :=
  if e.fromAddr = "" ∨ e.toAddr = "" ∨ e.rawValue = 0 then L
  else
    let value := decodeValue e.rawValue decimals
    let L1 := ensureEntry (ensureEntry L e.fromAddr) e.toAddr
    let L2 := setEntry L1 e.fromAddr (getEntry L1 e.fromAddr - value)
    setEntry L2 e.toAddr (getEntry L2 e.toAddr + value)

/-- Replay a batch of events in the order delivered by the provider. -/
def applyEvents (decimals : ℕ) (L : Ledger) (events : List TransferEvent) : Ledger :=
  events.foldl (applyEvent decimals) L

/-- Sum of all balances currently recorded in the ledger. -/
def ledgerSum (L : Ledger) : ℚ :=
  (L.map Prod.snd).sum

/-! ### The batched scan loop -/

/-- The window size constant of the scan loop
(`const batchSize = 100000` in `fetchHolders`). -/
def batchSize : ℕ := 100000

/-- Number of iterations of
`for (fromBlock = startBlock; fromBlock <= endBlock; fromBlock += bs)`:
for positive step `bs` the loop body runs `(endBlock - startBlock) / bs + 1`
times when `startBlock ≤ endBlock`, and never otherwise. -/
def windowCount (startBlock endBlock bs : ℕ) : ℕ :=
  if startBlock ≤ endBlock then (endBlock - startBlock) / bs + 1 else 0

/-- The successive `(fromBlock, toBlock)` pairs visited by the loop,
indexed by the remaining iteration count; `toBlock` is
`Math.min(fromBlock + batchSize - 1, endBlock)`. -/
def windowList (bs endBlock : ℕ) : ℕ → ℕ → List (ℕ × ℕ)
  | 0, _ => []
  | k + 1, fromBlock =>
      (fromBlock, min (fromBlock + bs - 1) endBlock) ::
        windowList bs endBlock k (fromBlock + bs)

/-- The event-scanning loop of `fetchHolders`: one `queryFilter` call per
window; a successful call replays its events into the ledger, a failed call
(`catch { ...; continue }`) leaves the ledger untouched and the loop moves on
to the next window. -/
def scanBatches (fetch : ℕ → ℕ → Except ProviderError (List TransferEvent))
    (decimals bs startBlock endBlock : ℕ) : Ledger :=
  (windowList bs endBlock (windowCount startBlock endBlock bs) startBlock).foldl
    (fun L w =>
      match fetch w.1 w.2 with
      | .ok events => applyEvents decimals L events
      | .error _ => L)
    []

/-! ### Filtering, sorting, and derived statistics -/

/-- The dust threshold (`const minBalanceThreshold = 0.01`). -/
def minBalanceThreshold : ℚ := 1 / 100

/-- Stable insertion of one element into a list already sorted by strictly
descending-or-equal balance; an element moves past another only when its
balance is strictly larger, which reproduces the stable JS
`sort((a, b) => b.balance - a.balance)`. -/
def insertDesc {α : Type} (bal : α → ℚ) (x : α) : List α → List α
  | [] => [x]
  | y :: ys => if bal y ≤ bal x then x :: y :: ys else y :: insertDesc bal x ys

/-- Stable sort by descending balance
(JS `sort((a, b) => b[1] - a[1])` on numbers). -/
def sortByBalanceDesc {α : Type} (bal : α → ℚ) : List α → List α
  | [] => []
  | x :: xs => insertDesc bal x (sortByBalanceDesc bal xs)

/-- `Array.from(holders.entries()).filter(([_, b]) => b > minBalanceThreshold)
.sort((a, b) => b[1] - a[1])`. -/
def filterAndSort (L : Ledger) : List (String × ℚ) :=
  sortByBalanceDesc Prod.snd (L.filter (fun p => decide (minBalanceThreshold < p.2)))

/-- `Number.prototype.toFixed(2)`: round to two decimal places, ties toward
positive infinity (ECMA-262 picks the larger candidate), modelled as the
resulting numeric value. -/
def toFixed2 (q : ℚ) : ℚ :=
  ((round (q * 100) : ℤ) : ℚ) / 100

/-- `Math.round(parseFloat(ethers.formatUnits(supply, decimals)))`:
the reported total supply, rounded to the nearest whole token
(ties toward positive infinity, as `Math.round` does). -/
def decodeSupply (raw : ℕ) (decimals : ℕ) : ℚ :=
  ((round ((raw : ℚ) / 10 ^ decimals) : ℤ) : ℚ)

/-- Classification outcome for a top holder. -/
inductive HolderType
  | wallet
  | contract
  | unknown
deriving DecidableEq, Repr

/-- Interface `TopHolder` of the source. -/
structure TopHolder where
  address : String
  balance : ℚ
  type : HolderType
deriving DecidableEq, Repr

/-- Interface `HoldersStats` of the source (the union-typed
`topHoldersProportion: string | number` field is modelled by the numeric
value it denotes). -/
structure HoldersStats where
  totalSupply : ℚ
  topHoldersProportion : ℚ
  topHolders : List TopHolder
  filteredHolders : List (String × ℚ)
deriving DecidableEq, Repr

/-- Interface `Holder` of the source. -/
structure Holder where
  holder : String
  balance : ℚ
deriving DecidableEq, Repr

/-- Interface `GroupStat` of the source (`cumulativeBalance` carries the
`toFixed(2)` value). -/
structure GroupStat where
  percentage : String
  walletsCount : ℕ
  walletsHoldingPercentage : ℚ
  cumulativeBalance : ℚ
deriving DecidableEq, Repr

/-- Interface `Stats` of the source (both formatted fields carry their
`toFixed(2)` values). -/
structure Stats where
  totalWallets : ℕ
  averageBalance : ℚ
  medianBalance : ℚ
  groupStats : List GroupStat
deriving DecidableEq, Repr

/-- Interface `TokenStats` of the source. -/
structure TokenStats where
  totalSupply : ℚ
  marketCap : Option ℚ
  topHoldersProportion : ℚ
  topHolders : List TopHolder
deriving DecidableEq, Repr

/-- Interface `TokenStatsResponse` of the source. -/
structure TokenStatsResponse where
  tokenStats : TokenStats
  stats : Stats
deriving DecidableEq, Repr

/-- The chain-provider and price-oracle environment one invocation runs
against: the credential, the outcome of each provider call the source makes,
and the market-cap lookup (which the source absorbs into `null` on failure,
hence an `Option`). -/
structure ChainEnv where
  infuraKey : Option String
  contractInit : Except ProviderError Unit
  supplyRaw : Except ProviderError ℕ
  blockNumber : Except ProviderError ℕ
  fetchEvents : ℕ → ℕ → Except ProviderError (List TransferEvent)
  getCode : String → Except ProviderError String
  marketCap : Option ℚ

/-- The top-holder enrichment inside `fetchHolders`: `getCode` succeeding
with non-`0x` code marks a contract, `0x` a wallet, and a failed lookup
degrades to `unknown`. -/
def classifyHolder (env : ChainEnv) (address : String) (balance : ℚ) : TopHolder :=
  match env.getCode address with
  | .ok code => ⟨address, balance, if code ≠ "0x" then .contract else .wallet⟩
  | .error _ => ⟨address, balance, .unknown⟩

/-- `fetchHolders`: provider initialisation (fails without an Infura key),
contract construction, total-supply fetch, current-height fetch, the batched
event scan, dust filtering and sorting, top-10 classification, and the
concentration computation.  Every failure of the four leading steps returns
`null` (`none`); a scan that leaves no holder above the dust threshold
returns the empty stats object as a success. -/
def fetchHolders (env : ChainEnv) (startBlock decimals : ℕ) : Option HoldersStats :=
  match env.infuraKey with
  | none => none
  | some _ =>
    match env.contractInit with
    | .error _ => none
    | .ok _ =>
      match env.supplyRaw with
      | .error _ => none
      | .ok raw =>
        let totalSupply := decodeSupply raw decimals
        match env.blockNumber with
        | .error _ => none
        | .ok endBlock =>
          let L := scanBatches env.fetchEvents decimals batchSize startBlock endBlock
          let filteredHolders := filterAndSort L
          let topHolders := (filteredHolders.take 10).map
            (fun p => classifyHolder env p.1 p.2)
          let totalTopHoldersBalance := (topHolders.map TopHolder.balance).sum
          let topHoldersProportion :=
            if 0 < totalSupply then totalTopHoldersBalance / totalSupply * 100 else 0
          if filteredHolders.isEmpty then
            some ⟨totalSupply, 0, [], []⟩
          else
            some ⟨totalSupply, toFixed2 topHoldersProportion, topHolders, filteredHolders⟩

/-- The percentile ranges table (`walletGroups` in `calculateStats`),
as `(percentage, rangeStart, rangeEnd)` triples. -/
def walletGroups : List (ℕ × ℕ × ℕ) :=
  [(10, 0, 10), (25, 10, 25), (50, 25, 50), (80, 50, 80)]

/-- `calculateStats`: total balance, descending sort, percentile-bucket
slices (`slice(floor(rangeStart/100 * n), floor(rangeEnd/100 * n))`, here
computed with exact arithmetic as `rangeStart * n / 100`), average, and
median. -/
def calculateStats (holdersArray : List Holder) : Stats :=
  let totalTokens := (holdersArray.map Holder.balance).sum
  let sorted := sortByBalanceDesc Holder.balance holdersArray
  let totalWallets := sorted.length
  let groupStats := walletGroups.map (fun g =>
    let rangeStartIndex := g.2.1 * totalWallets / 100
    let rangeEndIndex := g.2.2 * totalWallets / 100
    let walletsInRange := (sorted.drop rangeStartIndex).take (rangeEndIndex - rangeStartIndex)
    let cumulativeBalance := (walletsInRange.map Holder.balance).sum
    let walletsHoldingPercentage :=
      if 0 < totalTokens then cumulativeBalance / totalTokens * 100 else 0
    { percentage := toString g.2.1 ++ "-" ++ toString g.2.2 ++ "%",
      walletsCount := walletsInRange.length,
      walletsHoldingPercentage := walletsHoldingPercentage,
      cumulativeBalance := toFixed2 cumulativeBalance })
  let averageBalance := if 0 < totalWallets then totalTokens / totalWallets else 0
  let middleIndex := totalWallets / 2
  let medianBalance : ℚ :=
    if totalWallets = 0 then 0
    else if totalWallets % 2 = 0 then
      ((sorted.getD (middleIndex - 1) ⟨"", 0⟩).balance
        + (sorted.getD middleIndex ⟨"", 0⟩).balance) / 2
    else (sorted.getD middleIndex ⟨"", 0⟩).balance
  { totalWallets := totalWallets,
    averageBalance := toFixed2 averageBalance,
    medianBalance := toFixed2 medianBalance,
    groupStats := groupStats }

/-- `getTokenStats`: fetch holder stats (propagating `null`), look up the
market cap (absorbed to `null` on failure), compute the distribution
statistics, and assemble the response. -/
def getTokenStats (env : ChainEnv) (startBlock decimals : ℕ) : Option TokenStatsResponse :=
  match fetchHolders env startBlock decimals with
  | none => none
  | some holdersStats =>
    let holdersArray : List Holder :=
      holdersStats.filteredHolders.map (fun p => ⟨p.1, p.2⟩)
    let marketCap := env.marketCap
    let stats := calculateStats holdersArray
    some ⟨⟨holdersStats.totalSupply, marketCap,
           holdersStats.topHoldersProportion, holdersStats.topHolders⟩,
          stats⟩

/-! ### Derived notions used to state the claims -/

/-- The `(rangeStartIndex, rangeEndIndex)` pairs of the four percentile
buckets for a holder count of `n`, exactly as `calculateStats` computes its
`slice` bounds. -/
def bucketRanges (n : ℕ) : List (ℕ × ℕ) :=
  walletGroups.map (fun g => (g.2.1 * n / 100, g.2.2 * n / 100))

/-- A fault-free provider backed by a fixed global event history: a ranged
`queryFilter` call returns exactly the events whose block number lies in the
window (identical event data across batchings). -/
def honestFetch (events : List TransferEvent) (a b : ℕ) :
    Except ProviderError (List TransferEvent) :=
  .ok (events.filter (fun e => decide (a ≤ e.blockNumber) && decide (e.blockNumber ≤ b)))

/-- Events listed in ascending block order, as the provider delivers them. -/
abbrev SortedByBlock (events : List TransferEvent) : Prop :=
  List.Pairwise (fun x y => x.blockNumber ≤ y.blockNumber) events

/-! ### Concrete environments used by witnesses and counterexamples -/

/-- A healthy provider with an empty transfer history. -/
def envOkNoEvents : ChainEnv where
  infuraKey := some "key"
  contractInit := .ok ()
  supplyRaw := .ok 5
  blockNumber := .ok 0
  fetchEvents := fun _ _ => .ok []
  getCode := fun _ => .ok "0x"
  marketCap := none

/-- A provider whose event-log endpoint is persistently rate limited
(HTTP 429-equivalent) while every other call succeeds. -/
def envRateLimited : ChainEnv where
  infuraKey := some "key"
  contractInit := .ok ()
  supplyRaw := .ok 100
  blockNumber := .ok 0
  fetchEvents := fun _ _ => .error .rateLimited
  getCode := fun _ => .ok "0x"
  marketCap := none

/-- The two-window history behind the C3 scenario: a mint of 10 tokens to
`A` in block 0 and a transfer of 5 tokens from `A` to `B` in block 150000
(the second scan window). -/
def eventsTwoWindows : List TransferEvent :=
  [⟨"0x0", "A", 10, 0, "t1"⟩, ⟨"A", "B", 5, 150000, "t2"⟩]

/-- A provider over `eventsTwoWindows` whose fetch for the second window
(`fromBlock = 100000`) fails, while the first window succeeds. -/
def envSecondWindowFails : ChainEnv where
  infuraKey := some "key"
  contractInit := .ok ()
  supplyRaw := .ok 10
  blockNumber := .ok 150000
  fetchEvents := fun a b =>
    if a = 0 then honestFetch eventsTwoWindows a b else .error .rpcError
  getCode := fun _ => .ok "0x"
  marketCap := none

/-- The same provider with both windows healthy. -/
def envTwoWindowsOk : ChainEnv where
  infuraKey := some "key"
  contractInit := .ok ()
  supplyRaw := .ok 10
  blockNumber := .ok 150000
  fetchEvents := honestFetch eventsTwoWindows
  getCode := fun _ => .ok "0x"
  marketCap := none

/-- The 3-event fixture of the end-to-end scenario: mint 1000 to `A`,
transfer 400 from `A` to `B`, transfer 100 from `B` to `C`, with
`decimals = 0` and a total supply of 1000. -/
def envScenario : ChainEnv where
  infuraKey := some "key"
  contractInit := .ok ()
  supplyRaw := .ok 1000
  blockNumber := .ok 2
  fetchEvents := honestFetch
    [⟨"0x0", "A", 1000, 0, "t1"⟩, ⟨"A", "B", 400, 1, "t2"⟩, ⟨"B", "C", 100, 2, "t3"⟩]
  getCode := fun _ => .ok "0x"
  marketCap := none

/-- A token with a fractional total supply: raw supply 14 at one decimal,
i.e. 1.4 tokens, all minted to `A` in block 0. -/
def envFractionalSupply : ChainEnv where
  infuraKey := some "key"
  contractInit := .ok ()
  supplyRaw := .ok 14
  blockNumber := .ok 0
  fetchEvents := honestFetch [⟨"0x0", "A", 14, 0, "t1"⟩]
  getCode := fun _ => .ok "0x"
  marketCap := none

/-- A small block-sorted history spread over the range `[0, 2000000]`,
used to exercise batch equivalence. -/
def eventsWideRange : List TransferEvent :=
  [⟨"0x0", "A", 10, 5, "t1"⟩, ⟨"A", "B", 4, 999999, "t2"⟩, ⟨"B", "C", 1, 1500000, "t3"⟩]

/-- A two-holder set used to exercise the bucket computation. -/
def demoHolders : List Holder :=
  [⟨"A", 1⟩, ⟨"B", 2⟩]

/-! ### Ledger bookkeeping lemmas -/

theorem ledgerSum_cons (p : String × ℚ) (L : Ledger) :
    ledgerSum (p :: L) = p.2 + ledgerSum L := by
  simp [ledgerSum]

theorem ledgerSum_append (L L' : Ledger) :
    ledgerSum (L ++ L') = ledgerSum L + ledgerSum L' := by
  simp [ledgerSum]

theorem ledgerSum_setEntry (L : Ledger) (k : String) (v : ℚ) :
    ledgerSum (setEntry L k v) = ledgerSum L - getEntry L k + v := by
  induction L with
  | nil => simp [setEntry, getEntry, ledgerSum]
  | cons p rest ih =>
    by_cases h : p.1 = k
    · simp [setEntry, getEntry, h, ledgerSum_cons]
      ring
    · simp [setEntry, getEntry, h, ledgerSum_cons, ih]
      ring

theorem ledgerSum_ensureEntry (L : Ledger) (k : String) :
    ledgerSum (ensureEntry L k) = ledgerSum L := by
  unfold ensureEntry
  by_cases h : hasEntry L k
  · simp [h]
  · simp [h, ledgerSum_append, ledgerSum_cons, ledgerSum]

theorem ledgerSum_applyEvent (decimals : ℕ) (L : Ledger) (e : TransferEvent) :
    ledgerSum (applyEvent decimals L e) = ledgerSum L := by
  unfold applyEvent
  by_cases h : e.fromAddr = "" ∨ e.toAddr = "" ∨ e.rawValue = 0
  · simp [h]
  · simp only [h, if_false]
    rw [ledgerSum_setEntry, ledgerSum_setEntry, ledgerSum_ensureEntry, ledgerSum_ensureEntry]
    ring

theorem ledgerSum_applyEvents (decimals : ℕ) (L : Ledger) (events : List TransferEvent) :
    ledgerSum (applyEvents decimals L events) = ledgerSum L := by
  induction events generalizing L with
  | nil => rfl
  | cons e rest ih =>
    simp only [applyEvents, List.foldl_cons] at *
    rw [ih, ledgerSum_applyEvent]

theorem applyEvents_append (decimals : ℕ) (L : Ledger) (xs ys : List TransferEvent) :
    applyEvents decimals L (xs ++ ys) = applyEvents decimals (applyEvents decimals L xs) ys := by
  simp [applyEvents, List.foldl_append]

/-! ### Sorting lemmas -/

theorem length_insertDesc {α : Type} (bal : α → ℚ) (x : α) (l : List α) :
    (insertDesc bal x l).length = l.length + 1 := by
  induction l with
  | nil => rfl
  | cons y ys ih =>
    unfold insertDesc
    by_cases h : bal y ≤ bal x <;> simp [h, ih]

theorem length_sortByBalanceDesc {α : Type} (bal : α → ℚ) (l : List α) :
    (sortByBalanceDesc bal l).length = l.length := by
  induction l with
  | nil => rfl
  | cons x xs ih =>
    unfold sortByBalanceDesc
    rw [length_insertDesc, ih, List.length_cons]

theorem mem_insertDesc {α : Type} (bal : α → ℚ) (x y : α) (l : List α) :
    y ∈ insertDesc bal x l ↔ y = x ∨ y ∈ l := by
  induction l with
  | nil => simp [insertDesc]
  | cons z zs ih =>
    unfold insertDesc
    by_cases h : bal z ≤ bal x
    · simp [h]
    · simp [h, ih]
      tauto

theorem mem_sortByBalanceDesc {α : Type} (bal : α → ℚ) (y : α) (l : List α) :
    y ∈ sortByBalanceDesc bal l ↔ y ∈ l := by
  induction l with
  | nil => simp [sortByBalanceDesc]
  | cons x xs ih =>
    unfold sortByBalanceDesc
    rw [mem_insertDesc]
    simp [ih]

/-! ### Window partition lemmas -/

theorem filter_window_split (events : List TransferEvent) (a m c : ℕ)
    (ham : a ≤ m + 1) (hmc : m ≤ c) :
    SortedByBlock events →
    events.filter (fun e => decide (a ≤ e.blockNumber) && decide (e.blockNumber ≤ c)) =
      events.filter (fun e => decide (a ≤ e.blockNumber) && decide (e.blockNumber ≤ m)) ++
      events.filter (fun e => decide (m + 1 ≤ e.blockNumber) && decide (e.blockNumber ≤ c)) := by
  induction events with
  | nil => intro _; rfl
  | cons x xs ih =>
    intro hsort
    cases hsort with
    | cons hx hs =>
      have ih' := ih hs
      simp only [List.filter_cons, Bool.and_eq_true, decide_eq_true_eq]
      split_ifs with h1 h2 h3 h2 h3 <;> try (exfalso; omega)
      · simp [List.cons_append, ih']
      · have hq : List.filter
            (fun e => decide (a ≤ e.blockNumber) && decide (e.blockNumber ≤ m)) xs = [] := by
          rw [List.filter_eq_nil_iff]
          intro y hy
          have := hx y hy
          simp only [Bool.and_eq_true, decide_eq_true_eq, not_and]
          intro _
          omega
        simp [hq, ih']
      · simp [ih']

theorem scanBatches_honest (events : List TransferEvent) (d bs e : ℕ) (hbs : 0 < bs)
    (hsort : SortedByBlock events) :
    ∀ (k f : ℕ) (L : Ledger), k = windowCount f e bs →
      List.foldl (fun L w =>
          applyEvents d L (events.filter (fun ev =>
            decide (w.1 ≤ ev.blockNumber) && decide (ev.blockNumber ≤ w.2))))
        L (windowList bs e k f)
      = applyEvents d L (events.filter (fun ev =>
          decide (f ≤ ev.blockNumber) && decide (ev.blockNumber ≤ e))) := by
  intro k
  induction k with
  | zero =>
    intro f L hk
    have hf : e < f := by
      by_contra h
      push_neg at h
      simp [windowCount, h] at hk
    have hempty : events.filter (fun ev =>
        decide (f ≤ ev.blockNumber) && decide (ev.blockNumber ≤ e)) = [] := by
      rw [List.filter_eq_nil_iff]
      intro y _
      simp only [Bool.and_eq_true, decide_eq_true_eq, not_and]
      intro _
      omega
    simp [windowList, hempty, applyEvents]
  | succ k ih =>
    intro f L hk
    have hfe : f ≤ e := by
      by_contra h
      simp [windowCount, h] at hk
    have hcount : k + 1 = (e - f) / bs + 1 := by
      simpa [windowCount, hfe] using hk
    simp only [windowList, List.foldl_cons]
    by_cases hcase : f + bs - 1 < e
    · have hm : min (f + bs - 1) e = f + bs - 1 := by omega
      have hfb : f + bs ≤ e := by omega
      have hdiv : (e - f) / bs = (e - (f + bs)) / bs + 1 := by
        have h1 : e - f = (e - (f + bs)) + bs := by omega
        rw [h1, Nat.add_div_right _ hbs]
      have hk' : k = windowCount (f + bs) e bs := by
        simp only [windowCount, hfb, if_true]
        omega
      rw [hm, ih (f + bs) _ hk', ← applyEvents_append]
      congr 1
      have hsplit := filter_window_split events f (f + bs - 1) e (by omega) (by omega) hsort
      have hstep : f + bs - 1 + 1 = f + bs := by omega
      rw [hstep] at hsplit
      exact hsplit.symm
    · have hm : min (f + bs - 1) e = e := by omega
      have hk0 : k = 0 := by
        have : e - f < bs := by omega
        have hz : (e - f) / bs = 0 := Nat.div_eq_of_lt this
        omega
      subst hk0
      simp [windowList, hm]

theorem scanBatches_honest_eq_replay (events : List TransferEvent) (d bs s e : ℕ)
    (hbs : 0 < bs) (hsort : SortedByBlock events) :
    scanBatches (honestFetch events) d bs s e =
      applyEvents d [] (events.filter (fun ev =>
        decide (s ≤ ev.blockNumber) && decide (ev.blockNumber ≤ e))) := by
  unfold scanBatches
  exact scanBatches_honest events d bs e hbs hsort (windowCount s e bs) s [] rfl

/-! ### Dust filter, classification, and rounding lemmas -/

theorem mem_filterAndSort_pos (L : Ledger) (p : String × ℚ) (hp : p ∈ filterAndSort L) :
    minBalanceThreshold < p.2 := by
  unfold filterAndSort at hp
  rw [mem_sortByBalanceDesc] at hp
  have h := List.mem_filter.mp hp
  simpa using h.2

theorem classifyHolder_balance (env : ChainEnv) (a : String) (b : ℚ) :
    (classifyHolder env a b).balance = b := by
  unfold classifyHolder
  cases env.getCode a <;> simp

theorem toFixed2_nonneg (q : ℚ) (h : 0 ≤ q) : 0 ≤ toFixed2 q := by
  rw [toFixed2, round_eq]
  positivity

theorem toFixed2_zero : toFixed2 0 = 0 := by
  norm_num [toFixed2]

theorem decodeSupply_nonneg (raw decimals : ℕ) : 0 ≤ decodeSupply raw decimals := by
  rw [decodeSupply, round_eq]
  positivity

theorem decodeSupply_near (raw decimals : ℕ) :
    |decodeSupply raw decimals - (raw : ℚ) / 10 ^ decimals| ≤ 1 / 2 := by
  rw [decodeSupply, abs_sub_comm]
  exact_mod_cast abs_sub_round ((raw : ℚ) / 10 ^ decimals)

/-! ### Success and failure characterisation -/

theorem fetchHolders_ok_isSome (env : ChainEnv) (s d : ℕ) (k : String) (raw eb : ℕ)
    (hk : env.infuraKey = some k) (hc : env.contractInit = .ok ())
    (hsr : env.supplyRaw = .ok raw) (hb : env.blockNumber = .ok eb) :
    ∃ st, fetchHolders env s d = some st := by
  simp only [fetchHolders, hk, hc, hsr, hb]
  split
  · exact ⟨_, rfl⟩
  · exact ⟨_, rfl⟩

theorem getTokenStats_isSome_eq (env : ChainEnv) (s d : ℕ) :
    (getTokenStats env s d).isSome = (fetchHolders env s d).isSome := by
  unfold getTokenStats
  cases h : fetchHolders env s d <;> simp

theorem fetchHolders_empty_scan (env : ChainEnv) (s d : ℕ) (k : String) (raw eb : ℕ)
    (hk : env.infuraKey = some k) (hc : env.contractInit = .ok ())
    (hsr : env.supplyRaw = .ok raw) (hb : env.blockNumber = .ok eb)
    (hf : filterAndSort (scanBatches env.fetchEvents d batchSize s eb) = []) :
    fetchHolders env s d = some ⟨decodeSupply raw d, 0, [], []⟩ := by
  simp only [fetchHolders, hk, hc, hsr, hb]
  simp [hf]

/-! ## The claims -/

/-- C5: for every event sequence replayed starting from the all-zero (empty)
ledger, the sum of all final balances in the ledger equals zero: each applied
transfer subtracts the decoded amount from the sender and adds the same
amount to the receiver (skipped malformed events touch nothing), so transfers
conserve total balance. -/
theorem ledger_conservation (decimals : ℕ) (events : List TransferEvent) :
    ledgerSum (applyEvents decimals [] events) = 0 :=
  ledgerSum_applyEvents decimals [] events

/-- C9: `getTokenStats` is total over every provider environment and returns
`some` response exactly when the credential exists and contract construction,
the total-supply fetch, and the height fetch all succeed; every one of these
failure paths (modelled as the corresponding `Except` outcome of the
environment) yields the explicit `none` result. -/
theorem getTokenStats_total (env : ChainEnv) (s d : ℕ) :
    (getTokenStats env s d).isSome = true ↔
      (∃ k, env.infuraKey = some k) ∧ (∃ u, env.contractInit = .ok u) ∧
      (∃ raw, env.supplyRaw = .ok raw) ∧ (∃ eb, env.blockNumber = .ok eb) := by
  rw [getTokenStats_isSome_eq]
  cases hk : env.infuraKey <;> cases hc : env.contractInit <;>
    cases hsr : env.supplyRaw <;> cases hb : env.blockNumber <;>
    simp [fetchHolders, hk, hc, hsr, hb]
  split <;> simp

/-- C6: when the scan completes and zero holders pass the dust filter,
`fetchHolders` returns the valid empty report (the fetched and decoded total
supply, proportion 0, no top holders, no filtered holders) as a `some`
success, not a `none` failure. -/
theorem empty_filter_returns_empty_report (env : ChainEnv) (s d : ℕ) (k : String)
    (raw eb : ℕ)
    (hk : env.infuraKey = some k) (hc : env.contractInit = .ok ())
    (hsr : env.supplyRaw = .ok raw) (hb : env.blockNumber = .ok eb)
    (hf : filterAndSort (scanBatches env.fetchEvents d batchSize s eb) = []) :
    fetchHolders env s d = some ⟨decodeSupply raw d, 0, [], []⟩ :=
  fetchHolders_empty_scan env s d k raw eb hk hc hsr hb hf

/-- C6 witness: a healthy provider with an empty history produces the empty
report as a success. -/
theorem empty_filter_returns_empty_report_witness :
    envOkNoEvents.infuraKey = some "key" ∧
    filterAndSort (scanBatches envOkNoEvents.fetchEvents 0 batchSize 0 0) = [] ∧
    fetchHolders envOkNoEvents 0 0 = some ⟨decodeSupply 5 0, 0, [], []⟩ :=
  ⟨rfl, rfl,
    empty_filter_returns_empty_report envOkNoEvents 0 0 "key" 5 0 rfl rfl rfl rfl rfl⟩

/-- C1 counterexample: with every `queryFilter` call persistently rate
limited (HTTP 429-equivalent), the scan does not fail with a
retries-exhausted error: every window is skipped after its single failed
fetch attempt and `fetchHolders` completes successfully with the empty
report, contradicting the claim that exceeding a retry budget fails the
whole scan. -/
theorem rate_limit_completes_scan :
    envRateLimited.fetchEvents 0 99999 = .error .rateLimited ∧
    fetchHolders envRateLimited 0 0 = some ⟨decodeSupply 100 0, 0, [], []⟩ :=
  ⟨rfl, rfl⟩

/-- C1 amended: a rate-limited log-fetch is never retried — each window's
fetch is attempted once and a failure makes the loop skip the window and
continue — so even a provider whose event endpoint is rate limited on every
window lets the scan run to completion and return the (empty) report; no
retries-exhausted failure exists. -/
theorem rate_limit_skipped_without_retry (env : ChainEnv) (s d : ℕ) (k : String)
    (raw eb : ℕ)
    (hk : env.infuraKey = some k) (hc : env.contractInit = .ok ())
    (hsr : env.supplyRaw = .ok raw) (hb : env.blockNumber = .ok eb)
    (herr : ∀ a b, env.fetchEvents a b = .error .rateLimited) :
    fetchHolders env s d = some ⟨decodeSupply raw d, 0, [], []⟩ := by
  have hscan : scanBatches env.fetchEvents d batchSize s eb = [] := by
    unfold scanBatches
    have hgen : ∀ (ws : List (ℕ × ℕ)) (L : Ledger),
        ws.foldl (fun L w =>
          match env.fetchEvents w.1 w.2 with
          | .ok evs => applyEvents d L evs
          | .error _ => L) L = L := by
      intro ws
      induction ws with
      | nil => intro L; rfl
      | cons w ws ih =>
        intro L
        simp only [List.foldl_cons, herr w.1 w.2]
        exact ih L
    exact hgen _ []
  have hf : filterAndSort (scanBatches env.fetchEvents d batchSize s eb) = [] := by
    rw [hscan]; rfl
  exact fetchHolders_empty_scan env s d k raw eb hk hc hsr hb hf

/-- C1 amended witness: the persistently rate-limited provider. -/
theorem rate_limit_skipped_without_retry_witness :
    fetchHolders envRateLimited 0 0 = some ⟨decodeSupply 100 0, 0, [], []⟩ :=
  rate_limit_skipped_without_retry envRateLimited 0 0 "key" 100 0 rfl rfl rfl rfl
    (fun _ _ => rfl)

/-- C3 amended: once the credential, contract construction, total-supply
fetch and height fetch succeed, `getTokenStats` always returns a `some`
report — event-fetch failures in individual windows are absorbed by skipping
the window, so they never produce the explicit failure signal (and the
returned report may silently lack those windows' contributions). -/
theorem window_failure_still_returns_report (env : ChainEnv) (s d : ℕ) (k : String)
    (raw eb : ℕ)
    (hk : env.infuraKey = some k) (hc : env.contractInit = .ok ())
    (hsr : env.supplyRaw = .ok raw) (hb : env.blockNumber = .ok eb) :
    ∃ r, getTokenStats env s d = some r := by
  obtain ⟨st, hst⟩ := fetchHolders_ok_isSome env s d k raw eb hk hc hsr hb
  refine ⟨⟨⟨st.totalSupply, env.marketCap, st.topHoldersProportion, st.topHolders⟩,
    calculateStats (st.filteredHolders.map (fun p => ⟨p.1, p.2⟩))⟩, ?_⟩
  simp [getTokenStats, hst]

/-- C3 amended witness: the environment whose second window fetch fails
still yields a report. -/
theorem window_failure_still_returns_report_witness :
    (getTokenStats envSecondWindowFails 0 0).isSome = true := by
  obtain ⟨r, hr⟩ := window_failure_still_returns_report envSecondWindowFails 0 0
    "key" 10 150000 rfl rfl rfl rfl
  simp [hr]

/-- C8: scanning a block range with one positive window size produces the
same final ledger as scanning it with any other positive window size, for
any block-sorted event history served faithfully per window: batching is a
pure partitioning of work with no effect on the replay result. -/
theorem batch_equivalence (events : List TransferEvent) (d bs₁ bs₂ s e : ℕ)
    (h₁ : 0 < bs₁) (h₂ : 0 < bs₂) (hsort : SortedByBlock events) :
    scanBatches (honestFetch events) d bs₁ s e =
      scanBatches (honestFetch events) d bs₂ s e := by
  rw [scanBatches_honest_eq_replay events d bs₁ s e h₁ hsort,
      scanBatches_honest_eq_replay events d bs₂ s e h₂ hsort]

/-- C8 witness: one window of size 2000001 versus windows of size 1000000
over the range `[0, 2000000]`. -/
theorem batch_equivalence_witness :
    0 < 2000001 ∧ 0 < 1000000 ∧ SortedByBlock eventsWideRange ∧
    scanBatches (honestFetch eventsWideRange) 0 2000001 0 2000000 =
      scanBatches (honestFetch eventsWideRange) 0 1000000 0 2000000 :=
  ⟨by decide, by decide, by decide,
    batch_equivalence eventsWideRange 0 2000001 1000000 0 2000000
      (by decide) (by decide) (by decide)⟩

/-- C2 counterexample: with a single filtered holder, every bucket slice of
`calculateStats` is empty — `floor(0.8 * 1) = 0` — so the one holder is
counted by no bucket at all, refuting the claim that the rank ranges
partition the filtered holder set with none omitted. -/
theorem bucket_partition_fails :
    (calculateStats [⟨"A", 1⟩]).totalWallets = 1 ∧
    (((calculateStats [⟨"A", 1⟩]).groupStats.map (fun g => g.walletsCount)).sum = 0) := by
  constructor <;>
    norm_num [calculateStats, walletGroups, sortByBalanceDesc, insertDesc]

/-- C2 amended: the four bucket rank ranges of `calculateStats` are pairwise
disjoint and cover exactly the top `80 * n / 100` ranks of the `n` filtered
holders: the bucket wallet counts always sum to `80 * n / 100`, a rank `i`
lies in exactly one bucket range iff `i < 80 * n / 100` and in none
otherwise, and for any nonempty holder set `80 * n / 100 < n`, so the
bottom-ranked holders are always omitted from every bucket. -/
theorem bucket_partition_top80 (l : List Holder) (i : ℕ) (hi : i < l.length) :
    ((calculateStats l).groupStats.map (fun g => g.walletsCount)).sum =
      80 * l.length / 100 ∧
    ((bucketRanges l.length).countP (fun r => decide (r.1 ≤ i ∧ i < r.2)) =
      if i < 80 * l.length / 100 then 1 else 0) ∧
    80 * l.length / 100 < l.length := by
  have hlen := length_sortByBalanceDesc Holder.balance l
  refine ⟨?_, ?_, by omega⟩
  · simp [calculateStats, walletGroups, List.length_take, List.length_drop, hlen]
    omega
  · simp only [bucketRanges, walletGroups, List.map_cons, List.map_nil,
      List.countP_cons, List.countP_nil, decide_eq_true_eq]
    split_ifs <;> omega

/-- C2 amended witness: two holders, rank 0. -/
theorem bucket_partition_top80_witness :
    ((calculateStats demoHolders).groupStats.map (fun g => g.walletsCount)).sum =
      80 * demoHolders.length / 100 ∧
    ((bucketRanges demoHolders.length).countP (fun r => decide (r.1 ≤ 0 ∧ 0 < r.2)) =
      if 0 < 80 * demoHolders.length / 100 then 1 else 0) ∧
    80 * demoHolders.length / 100 < demoHolders.length :=
  bucket_partition_top80 demoHolders 0 (by decide)

/-- C7 counterexample: a token whose raw supply is 14 at one decimal
(1.4 tokens, all held by `A`) reports `totalSupply = 1` after `Math.round`,
and the top-10 concentration becomes `1.4 / 1 * 100 = 140`, outside
`[0, 100]` even though `totalSupply > 0`. -/
theorem proportion_exceeds_hundred :
    fetchHolders envFractionalSupply 0 1 =
      some ⟨1, 140, [⟨"A", 7 / 5, .wallet⟩], [("A", 7 / 5)]⟩ ∧
    ¬ ((140 : ℚ) ≤ 100) := by
  have he1 : applyEvent 1 [] ⟨"0x0", "A", 14, 0, "t1"⟩ =
      [("0x0", -(7 / 5)), ("A", 7 / 5)] := by
    simp [applyEvent, decodeValue, ensureEntry, hasEntry, getEntry, setEntry]
    norm_num
  have hwin : windowList batchSize 0 (windowCount 0 0 batchSize) 0 = [(0, 0)] := by decide
  have hscan : scanBatches envFractionalSupply.fetchEvents 1 batchSize 0 0 =
      [("0x0", -(7 / 5)), ("A", 7 / 5)] := by
    unfold scanBatches
    rw [hwin]
    simp only [List.foldl_cons, List.foldl_nil]
    norm_num [envFractionalSupply, honestFetch, applyEvents, he1, List.filter]
  have hfilter : filterAndSort [("0x0", -(7 / 5)), ("A", 7 / 5)] = [("A", 7 / 5)] := by
    norm_num [filterAndSort, minBalanceThreshold, List.filter, sortByBalanceDesc, insertDesc]
  have hsup : decodeSupply 14 1 = 1 := by
    norm_num [decodeSupply, round_eq]
  have hk : envFractionalSupply.infuraKey = some "key" := rfl
  have hc : envFractionalSupply.contractInit = .ok () := rfl
  have hsr : envFractionalSupply.supplyRaw = .ok 14 := rfl
  have hb : envFractionalSupply.blockNumber = .ok 0 := rfl
  have hgc : envFractionalSupply.getCode "A" = .ok "0x" := rfl
  have hclass : classifyHolder envFractionalSupply "A" (7 / 5) = ⟨"A", 7 / 5, .wallet⟩ := by
    simp [classifyHolder, hgc]
  refine ⟨?_, by norm_num⟩
  simp [fetchHolders, hk, hc, hsr, hb, hscan, hfilter, hsup, hclass]
  norm_num [toFixed2, round_eq]

/-- C7 amended: for every scan result, the reported top-10 proportion is
nonnegative (each filtered balance exceeds the positive dust threshold and
a nonpositive supply short-circuits to 0), and it equals 0 whenever the
reported total supply is 0; the upper bound 100 does not hold in general. -/
theorem proportion_nonneg (env : ChainEnv) (s d : ℕ) (st : HoldersStats)
    (h : fetchHolders env s d = some st) :
    0 ≤ st.topHoldersProportion ∧
    (st.totalSupply = 0 → st.topHoldersProportion = 0) := by
  cases hk : env.infuraKey with
  | none =>
    simp only [fetchHolders, hk] at h
    exact Option.noConfusion h
  | some k =>
  cases hc : env.contractInit with
  | error e =>
    simp only [fetchHolders, hk, hc] at h
    exact Option.noConfusion h
  | ok u =>
  cases hsr : env.supplyRaw with
  | error e =>
    simp only [fetchHolders, hk, hc, hsr] at h
    exact Option.noConfusion h
  | ok raw =>
  cases hb : env.blockNumber with
  | error e =>
    simp only [fetchHolders, hk, hc, hsr, hb] at h
    exact Option.noConfusion h
  | ok eb =>
  simp only [fetchHolders, hk, hc, hsr, hb] at h
  by_cases hemp : (filterAndSort (scanBatches env.fetchEvents d batchSize s eb)).isEmpty
  · rw [if_pos hemp] at h
    injection h with h
    subst h
    exact ⟨le_refl 0, fun _ => rfl⟩
  · rw [if_neg hemp] at h
    injection h with h
    subst h
    constructor
    · apply toFixed2_nonneg
      by_cases hds : 0 < decodeSupply raw d
      · rw [if_pos hds]
        have hS : 0 ≤ ((((filterAndSort
            (scanBatches env.fetchEvents d batchSize s eb)).take 10).map
              (fun p => classifyHolder env p.1 p.2)).map TopHolder.balance).sum := by
          apply List.sum_nonneg
          intro b hb
          obtain ⟨th, hth, rfl⟩ := List.mem_map.mp hb
          obtain ⟨p, hp, rfl⟩ := List.mem_map.mp hth
          rw [classifyHolder_balance]
          have hpos := mem_filterAndSort_pos _ p (List.mem_of_mem_take hp)
          have h001 : (0 : ℚ) < minBalanceThreshold := by
            norm_num [minBalanceThreshold]
          linarith
        exact mul_nonneg (div_nonneg hS (le_of_lt hds)) (by norm_num)
      · rw [if_neg hds]
    · intro hzero
      simp only at hzero
      rw [hzero]
      rw [if_neg (lt_irrefl (0 : ℚ))]
      exact toFixed2_zero

/-- C7 amended witness: the empty-history provider, whose proportion is 0. -/
theorem proportion_nonneg_witness :
    0 ≤ (HoldersStats.mk (decodeSupply 5 0) 0 [] []).topHoldersProportion :=
  (proportion_nonneg envOkNoEvents 0 0 ⟨decodeSupply 5 0, 0, [], []⟩ rfl).1

/-- C10: on every successful scan, the reported `totalSupply` is the raw
supply decoded and rounded to the nearest whole token unit — an integer
within one half of the exact decoded value, so fractional supplies are not
preserved — and whenever holders exist and the rounded supply is positive,
this rounded value is the denominator of the reported top-10 concentration
percentage. -/
theorem supply_rounded_and_is_denominator (env : ChainEnv) (s d : ℕ) (k : String)
    (raw eb : ℕ)
    (hk : env.infuraKey = some k) (hc : env.contractInit = .ok ())
    (hsr : env.supplyRaw = .ok raw) (hb : env.blockNumber = .ok eb)
    (st : HoldersStats) (h : fetchHolders env s d = some st) :
    st.totalSupply = decodeSupply raw d ∧
    (∃ z : ℤ, st.totalSupply = (z : ℚ)) ∧
    |st.totalSupply - (raw : ℚ) / 10 ^ d| ≤ 1 / 2 ∧
    (st.filteredHolders ≠ [] → 0 < st.totalSupply →
      st.topHoldersProportion =
        toFixed2 ((st.topHolders.map TopHolder.balance).sum / st.totalSupply * 100)) := by
  simp only [fetchHolders, hk, hc, hsr, hb] at h
  by_cases hemp : (filterAndSort (scanBatches env.fetchEvents d batchSize s eb)).isEmpty
  · rw [if_pos hemp] at h
    injection h with h
    subst h
    refine ⟨rfl, ⟨_, rfl⟩, decodeSupply_near raw d, ?_⟩
    intro hne
    exact absurd rfl hne
  · rw [if_neg hemp] at h
    injection h with h
    subst h
    refine ⟨rfl, ⟨_, rfl⟩, decodeSupply_near raw d, ?_⟩
    intro _ hpos
    simp only at hpos ⊢
    rw [if_pos hpos]

/-- C10 witness: the empty-history provider with raw supply 5 at zero
decimals. -/
theorem supply_rounded_and_is_denominator_witness :
    (HoldersStats.mk (decodeSupply 5 0) 0 [] []).totalSupply = decodeSupply 5 0 ∧
    (∃ z : ℤ, (HoldersStats.mk (decodeSupply 5 0) 0 [] []).totalSupply = (z : ℚ)) ∧
    |(HoldersStats.mk (decodeSupply 5 0) 0 [] []).totalSupply - (5 : ℚ) / 10 ^ 0| ≤ 1 / 2 ∧
    ((HoldersStats.mk (decodeSupply 5 0) 0 [] []).filteredHolders ≠ [] →
      0 < (HoldersStats.mk (decodeSupply 5 0) 0 [] []).totalSupply →
      (HoldersStats.mk (decodeSupply 5 0) 0 [] []).topHoldersProportion =
        toFixed2 (((HoldersStats.mk (decodeSupply 5 0) 0 [] []).topHolders.map
          TopHolder.balance).sum / (HoldersStats.mk (decodeSupply 5 0) 0 [] []).totalSupply
            * 100)) :=
  supply_rounded_and_is_denominator envOkNoEvents 0 0 "key" 5 0 rfl rfl rfl rfl
    ⟨decodeSupply 5 0, 0, [], []⟩ rfl

/-- C3 counterexample: over the same two-window history, the provider whose
second window fetch fails still gets a `some` report from `getTokenStats`,
but that report silently lacks the second window's transfer — it sees one
holder `A` with balance 10, while the fault-free provider reports two
holders `A` and `B` with balance 5 each — refuting the claim that a report
missing a block window's contribution is never returned. -/
theorem incomplete_report_silently_returned :
    envSecondWindowFails.fetchEvents 100000 150000 = .error .rpcError ∧
    envTwoWindowsOk.fetchEvents 100000 150000 = .ok [⟨"A", "B", 5, 150000, "t2"⟩] ∧
    (getTokenStats envSecondWindowFails 0 0).map (fun r => r.stats.totalWallets) =
      some 1 ∧
    (getTokenStats envTwoWindowsOk 0 0).map (fun r => r.stats.totalWallets) =
      some 2 ∧
    (getTokenStats envSecondWindowFails 0 0).map (fun r => r.tokenStats.topHolders) =
      some [⟨"A", 10, .wallet⟩] ∧
    (getTokenStats envTwoWindowsOk 0 0).map (fun r => r.tokenStats.topHolders) =
      some [⟨"A", 5, .wallet⟩, ⟨"B", 5, .wallet⟩] := by
  have he1 : applyEvent 0 [] ⟨"0x0", "A", 10, 0, "t1"⟩ = [("0x0", -10), ("A", 10)] := by
    simp [applyEvent, decodeValue, ensureEntry, hasEntry, getEntry, setEntry]
  have he2 : applyEvent 0 [("0x0", -10), ("A", 10)] ⟨"A", "B", 5, 150000, "t2"⟩ =
      [("0x0", -10), ("A", 5), ("B", 5)] := by
    simp [applyEvent, decodeValue, ensureEntry, hasEntry, getEntry, setEntry]
    norm_num
  have hwin : windowList batchSize 150000 (windowCount 0 150000 batchSize) 0 =
      [(0, 99999), (100000, 150000)] := by decide
  have hf1b : envSecondWindowFails.fetchEvents 0 99999 =
      .ok [⟨"0x0", "A", 10, 0, "t1"⟩] := rfl
  have hf2b : envSecondWindowFails.fetchEvents 100000 150000 = .error .rpcError := rfl
  have hf1g : envTwoWindowsOk.fetchEvents 0 99999 = .ok [⟨"0x0", "A", 10, 0, "t1"⟩] := rfl
  have hf2g : envTwoWindowsOk.fetchEvents 100000 150000 =
      .ok [⟨"A", "B", 5, 150000, "t2"⟩] := rfl
  have hscanB : scanBatches envSecondWindowFails.fetchEvents 0 batchSize 0 150000 =
      [("0x0", -10), ("A", 10)] := by
    unfold scanBatches
    rw [hwin]
    simp only [List.foldl_cons, List.foldl_nil, hf1b, hf2b, applyEvents, he1]
  have hscanG : scanBatches envTwoWindowsOk.fetchEvents 0 batchSize 0 150000 =
      [("0x0", -10), ("A", 5), ("B", 5)] := by
    unfold scanBatches
    rw [hwin]
    simp only [List.foldl_cons, List.foldl_nil, hf1g, hf2g, applyEvents, he1, he2]
  have hfiltB : filterAndSort [("0x0", -10), ("A", 10)] = [("A", 10)] := by
    norm_num [filterAndSort, minBalanceThreshold, List.filter, sortByBalanceDesc, insertDesc]
  have hfiltG : filterAndSort [("0x0", -10), ("A", 5), ("B", 5)] = [("A", 5), ("B", 5)] := by
    norm_num [filterAndSort, minBalanceThreshold, List.filter, sortByBalanceDesc, insertDesc]
  have hsup : decodeSupply 10 0 = 10 := by
    norm_num [decodeSupply, round_eq]
  have hclassB : classifyHolder envSecondWindowFails "A" 10 = ⟨"A", 10, .wallet⟩ := by
    simp [classifyHolder, show envSecondWindowFails.getCode "A" = .ok "0x" from rfl]
  have hclassGA : classifyHolder envTwoWindowsOk "A" 5 = ⟨"A", 5, .wallet⟩ := by
    simp [classifyHolder, show envTwoWindowsOk.getCode "A" = .ok "0x" from rfl]
  have hclassGB : classifyHolder envTwoWindowsOk "B" 5 = ⟨"B", 5, .wallet⟩ := by
    simp [classifyHolder, show envTwoWindowsOk.getCode "B" = .ok "0x" from rfl]
  have hfetchB : fetchHolders envSecondWindowFails 0 0 =
      some ⟨10, 100, [⟨"A", 10, .wallet⟩], [("A", 10)]⟩ := by
    simp [fetchHolders,
      show envSecondWindowFails.infuraKey = some "key" from rfl,
      show envSecondWindowFails.contractInit = .ok () from rfl,
      show envSecondWindowFails.supplyRaw = .ok 10 from rfl,
      show envSecondWindowFails.blockNumber = .ok 150000 from rfl,
      hscanB, hfiltB, hsup, hclassB]
    norm_num [toFixed2, round_eq]
  have hfetchG : fetchHolders envTwoWindowsOk 0 0 =
      some ⟨10, 100, [⟨"A", 5, .wallet⟩, ⟨"B", 5, .wallet⟩], [("A", 5), ("B", 5)]⟩ := by
    simp [fetchHolders,
      show envTwoWindowsOk.infuraKey = some "key" from rfl,
      show envTwoWindowsOk.contractInit = .ok () from rfl,
      show envTwoWindowsOk.supplyRaw = .ok 10 from rfl,
      show envTwoWindowsOk.blockNumber = .ok 150000 from rfl,
      hscanG, hfiltG, hsup, hclassGA, hclassGB]
    norm_num [toFixed2, round_eq]
  refine ⟨hf2b, hf2g, ?_, ?_, ?_, ?_⟩ <;>
    simp [getTokenStats, hfetchB, hfetchG, calculateStats, sortByBalanceDesc, insertDesc]

/-- C4: on the 3-event fixture (mint 1000 to `A`, transfer 400 `A` to `B`,
transfer 100 `B` to `C`) with `decimals = 0`, dust threshold 0.01 and total
supply 1000: the final ledger holds `A = 600`, `B = 300`, `C = 100` (the
mint source carrying the balancing `-1000`); the report counts 3 wallets,
average balance `333.33`, median `300`, and a top-10 concentration of 100%
of the supply of 1000. -/
theorem end_to_end_scenario :
    scanBatches envScenario.fetchEvents 0 batchSize 0 2 =
      [("0x0", -1000), ("A", 600), ("B", 300), ("C", 100)] ∧
    getTokenStats envScenario 0 0 = some
      ⟨⟨1000, none, 100,
        [⟨"A", 600, .wallet⟩, ⟨"B", 300, .wallet⟩, ⟨"C", 100, .wallet⟩]⟩,
       ⟨3, 33333 / 100, 300,
        [⟨"0-10%", 0, 0, 0⟩, ⟨"10-25%", 0, 0, 0⟩, ⟨"25-50%", 1, 60, 600⟩,
         ⟨"50-80%", 1, 30, 300⟩]⟩⟩ := by
  have he1 : applyEvent 0 [] ⟨"0x0", "A", 1000, 0, "t1"⟩ =
      [("0x0", -1000), ("A", 1000)] := by
    simp [applyEvent, decodeValue, ensureEntry, hasEntry, getEntry, setEntry]
  have he2 : applyEvent 0 [("0x0", -1000), ("A", 1000)] ⟨"A", "B", 400, 1, "t2"⟩ =
      [("0x0", -1000), ("A", 600), ("B", 400)] := by
    simp [applyEvent, decodeValue, ensureEntry, hasEntry, getEntry, setEntry]
    norm_num
  have he3 : applyEvent 0 [("0x0", -1000), ("A", 600), ("B", 400)]
      ⟨"B", "C", 100, 2, "t3"⟩ =
      [("0x0", -1000), ("A", 600), ("B", 300), ("C", 100)] := by
    simp [applyEvent, decodeValue, ensureEntry, hasEntry, getEntry, setEntry]
    norm_num
  have hwin : windowList batchSize 2 (windowCount 0 2 batchSize) 0 = [(0, 2)] := by decide
  have hfev : envScenario.fetchEvents 0 2 =
      .ok [⟨"0x0", "A", 1000, 0, "t1"⟩, ⟨"A", "B", 400, 1, "t2"⟩,
           ⟨"B", "C", 100, 2, "t3"⟩] := rfl
  have hscan : scanBatches envScenario.fetchEvents 0 batchSize 0 2 =
      [("0x0", -1000), ("A", 600), ("B", 300), ("C", 100)] := by
    unfold scanBatches
    rw [hwin]
    simp only [List.foldl_cons, List.foldl_nil, hfev, applyEvents, he1, he2, he3]
  have hfilt : filterAndSort [("0x0", -1000), ("A", 600), ("B", 300), ("C", 100)] =
      [("A", 600), ("B", 300), ("C", 100)] := by
    norm_num [filterAndSort, minBalanceThreshold, List.filter, sortByBalanceDesc, insertDesc]
  have hsup : decodeSupply 1000 0 = 1000 := by
    norm_num [decodeSupply, round_eq]
  have hclA : classifyHolder envScenario "A" 600 = ⟨"A", 600, .wallet⟩ := by
    simp [classifyHolder, show envScenario.getCode "A" = .ok "0x" from rfl]
  have hclB : classifyHolder envScenario "B" 300 = ⟨"B", 300, .wallet⟩ := by
    simp [classifyHolder, show envScenario.getCode "B" = .ok "0x" from rfl]
  have hclC : classifyHolder envScenario "C" 100 = ⟨"C", 100, .wallet⟩ := by
    simp [classifyHolder, show envScenario.getCode "C" = .ok "0x" from rfl]
  have hfetch : fetchHolders envScenario 0 0 = some
      ⟨1000, 100, [⟨"A", 600, .wallet⟩, ⟨"B", 300, .wallet⟩, ⟨"C", 100, .wallet⟩],
       [("A", 600), ("B", 300), ("C", 100)]⟩ := by
    simp [fetchHolders,
      show envScenario.infuraKey = some "key" from rfl,
      show envScenario.contractInit = .ok () from rfl,
      show envScenario.supplyRaw = .ok 1000 from rfl,
      show envScenario.blockNumber = .ok 2 from rfl,
      hscan, hfilt, hsup, hclA, hclB, hclC]
    norm_num [toFixed2, round_eq]
  have hstats : calculateStats [⟨"A", 600⟩, ⟨"B", 300⟩, ⟨"C", 100⟩] =
      ⟨3, 33333 / 100, 300,
        [⟨"0-10%", 0, 0, 0⟩, ⟨"10-25%", 0, 0, 0⟩, ⟨"25-50%", 1, 60, 600⟩,
         ⟨"50-80%", 1, 30, 300⟩]⟩ := by
    simp [calculateStats, walletGroups, sortByBalanceDesc, insertDesc, List.getD]
    norm_num [toFixed2, round_eq]
    refine ⟨?_, rfl, rfl, rfl, rfl⟩
    simp
    norm_num
  refine ⟨hscan, ?_⟩
  have hmap : ([("A", (600 : ℚ)), ("B", 300), ("C", 100)]).map
      (fun p => (⟨p.1, p.2⟩ : Holder)) = [⟨"A", 600⟩, ⟨"B", 300⟩, ⟨"C", 100⟩] := rfl
  simp [getTokenStats, hfetch, hmap, hstats, show envScenario.marketCap = none from rfl]

end DaoApi
